import Mathlib

/-!
Verification of the human-id repository: a per-subject hash-chained identity
ledger with a global anchor index (index modules), and an HTTP identity server
with DID derivation, challenge-response proof-of-possession and an attestation
trust-level policy (server.js).

The JavaScript source is shallowly embedded: stateful operations become pure
state-passing functions; the platform primitives that are not part of the
repository (SHA-256, Ed25519 verification, PEM/DER parsing, clocks and fresh
randomness) are passed in as explicit parameters; JSON.stringify of the block
objects is modelled by a concrete serializer that fixes the field order the
code establishes by object-literal insertion order.
-/

set_option autoImplicit false
set_option maxRecDepth 8192

namespace HumanId

/-! ## JavaScript values appearing in signable payloads -/

/-- A JS value as it occurs in a signable payload field: a string or an
integer number.  Template-literal interpolation stringifies it. -/
inductive JsValue
  | str (s : String)
  | num (n : Nat)
  deriving DecidableEq, Repr

/-- JS template-literal stringification of a payload field. -/
def JsValue.interp : JsValue → String
  | .str s => s
  | .num n => toString n

/-- JS strict equality (`===`) between a payload field and a string id:
a number is never strictly equal to a string. -/
def JsValue.strEq : JsValue → String → Bool
  | .str s, t => s == t
  | .num _, _ => false

/-- The signable payload `{ id, level, ts, nonce }` of the index module. -/
structure Payload where
  id : JsValue
  level : JsValue
  ts : JsValue
  nonce : JsValue
  deriving DecidableEq, Repr

/-- `canonicalMessage` of the index module:
`id=...|level=...|ts=...|nonce=...` built by template literal. -/
def canonicalMessage (payload : Payload) : String :=
  "id=" ++ payload.id.interp ++ "|level=" ++ payload.level.interp ++
  "|ts=" ++ payload.ts.interp ++ "|nonce=" ++ payload.nonce.interp

/-! ## String helpers for PEM normalization -/

/-- Whether `needle` occurs as a contiguous run inside `hay`
(JS `String.prototype.includes`). -/
def containsRun : List Char → List Char → Bool
  | needle, [] => needle.isEmpty
  | needle, c :: rest =>
    needle.isPrefixOf (c :: rest) || containsRun needle rest

/-- JS `String.prototype.trim`: strip leading and trailing whitespace. -/
def jsTrim (s : String) : String :=
  String.mk
    (((s.toList.dropWhile Char.isWhitespace).reverse.dropWhile
      Char.isWhitespace).reverse)

/-- `normalizePemPublicKey` of the index module: trims the string and
requires the marker `BEGIN PUBLIC KEY` to occur in it.  The JS
`typeof pub !== "string"` guard is absorbed by the `String` type. -/
def normalizePemPublicKey (pub : String) : Option String :=
  let trimmed := jsTrim pub
  if containsRun "BEGIN PUBLIC KEY".toList trimmed.toList then some trimmed
  else none

/-! ## Blocks and their JSON serialization -/

/-- The `data` field of a block.  `genesis` is built by the signed module's
`creaIdentita` (insertion order: status, verificationLevel, publicKeyPem);
`signed` by `appendEventSigned` (payload, signatureB64, then the spread of
`dataExtra`, modelled as a key/value list); `plain` by the legacy module's
`aggiornaVerifica` (verificationLevel only). -/
inductive BlockData
  | genesis (status verificationLevel publicKeyPem : String)
  | signed (payload : Payload) (signatureB64 : String)
      (extra : List (String × String))
  | plain (verificationLevel : String)
  deriving DecidableEq, Repr

/-- A ledger block.  The field order of this structure is the object-literal
insertion order of the source, which is what `JSON.stringify` serializes. -/
structure Block where
  index : Nat
  timestamp : String
  event : String
  data : BlockData
  previousHash : String
  hash : String
  deriving DecidableEq, Repr

/-- JSON string escaping as performed by `JSON.stringify` on the characters
that occur in this system's strings (quote, backslash, newline, carriage
return, tab). -/
def jsonEscapeChar (c : Char) : List Char :=
  if c = '"' then ['\\', '"']
  else if c = '\\' then ['\\', '\\']
  else if c = '\n' then ['\\', 'n']
  else if c = '\r' then ['\\', 'r']
  else if c = '\t' then ['\\', 't']
  else [c]

/-- A JSON string literal for `s`. -/
def jstr (s : String) : String :=
  "\"" ++ String.mk (s.toList.flatMap jsonEscapeChar) ++ "\""

/-- A JSON value for a payload field. -/
def jsonOfJsValue : JsValue → String
  | .str s => jstr s
  | .num n => toString n

/-- `JSON.stringify` of a payload object, in field insertion order. -/
def jsonOfPayload (p : Payload) : String :=
  "\x7b\"id\":" ++ jsonOfJsValue p.id ++
  ",\"level\":" ++ jsonOfJsValue p.level ++
  ",\"ts\":" ++ jsonOfJsValue p.ts ++
  ",\"nonce\":" ++ jsonOfJsValue p.nonce ++ "\x7d"

/-- `JSON.stringify` of a key/value list spread into an object (comma-led,
to be appended after earlier fields). -/
def jsonOfExtra : List (String × String) → String
  | [] => ""
  | (k, v) :: rest => "," ++ jstr k ++ ":" ++ jstr v ++ jsonOfExtra rest

/-- `JSON.stringify` of a block's `data` field. -/
def jsonOfData : BlockData → String
  | .genesis status verificationLevel publicKeyPem =>
    "\x7b\"status\":" ++ jstr status ++
    ",\"verificationLevel\":" ++ jstr verificationLevel ++
    ",\"publicKeyPem\":" ++ jstr publicKeyPem ++ "\x7d"
  | .signed payload signatureB64 extra =>
    "\x7b\"payload\":" ++ jsonOfPayload payload ++
    ",\"signatureB64\":" ++ jstr signatureB64 ++ jsonOfExtra extra ++ "\x7d"
  | .plain verificationLevel =>
    "\x7b\"verificationLevel\":" ++ jstr verificationLevel ++ "\x7d"

/-- `JSON.stringify` of a block before its `hash` field is assigned — the
exact string the source hashes, and also the string `verificaIdentita`
rebuilds (by rest-destructuring away `hash`, which preserves the remaining
insertion order). -/
def serializeNoHash (b : Block) : String :=
  "\x7b\"index\":" ++ toString b.index ++
  ",\"timestamp\":" ++ jstr b.timestamp ++
  ",\"event\":" ++ jstr b.event ++
  ",\"data\":" ++ jsonOfData b.data ++
  ",\"previousHash\":" ++ jstr b.previousHash ++ "\x7d"

/-! ## Generic keyed storage (files keyed by id, JS `Map`s, DB rows) -/

/-- Look up the value stored under key `k` (first match). -/
def getStored {α : Type} : List (String × α) → String → Option α
  | [], _ => none
  | (k', v) :: rest, k => if k' = k then some v else getStored rest k

/-- Store `v` under key `k`, replacing the first existing entry (file
overwrite / `Map.set` / upsert). -/
def setStored {α : Type} : List (String × α) → String → α → List (String × α)
  | [], k, v => [(k, v)]
  | (k', v') :: rest, k, v =>
    if k' = k then (k, v) :: rest else (k', v') :: setStored rest k v

/-- Delete the entry stored under key `k` (`Map.delete` / SQL delete). -/
def delStored {α : Type} : List (String × α) → String → List (String × α)
  | [], _ => []
  | (k', v') :: rest, k =>
    if k' = k then rest else (k', v') :: delStored rest k

theorem getStored_setStored_self {α : Type} (l : List (String × α))
    (k : String) (v : α) : getStored (setStored l k v) k = some v := by
  induction l with
  | nil => simp [setStored, getStored]
  | cons hd tl ih =>
    by_cases h : hd.1 = k
    · simp [setStored, getStored, h]
    · simp [setStored, getStored, h, ih]

theorem getStored_setStored_other {α : Type} (l : List (String × α))
    (k k' : String) (v : α) (hne : k' ≠ k) :
    getStored (setStored l k v) k' = getStored l k' := by
  have hne' : ¬ k = k' := fun h => hne h.symm
  induction l with
  | nil => simp [setStored, getStored, hne']
  | cons hd tl ih =>
    by_cases h : hd.1 = k
    · simp [setStored, getStored, h, hne']
    · simp [setStored, getStored, h, ih]

/-! ## The anchor index (`global-chain.json`) -/

/-- A record of the global anchor index. -/
structure AnchorRecord where
  id : String
  timestamp : String
  latestHash : String
  deriving DecidableEq, Repr

/-- `globalChain.find(r => r.id === id)`. -/
def findAnchor : List AnchorRecord → String → Option AnchorRecord
  | [], _ => none
  | r :: rest, i => if r.id = i then some r else findAnchor rest i

/-- `updateGlobalAnchor` of the signed index module: mutate the first record
with this id (latestHash and timestamp) or push a fresh record. -/
def updateGlobalAnchor (i ts latest : String) :
    List AnchorRecord → List AnchorRecord
  | [] => [⟨i, ts, latest⟩]
  | r :: rest =>
    if r.id = i then { r with latestHash := latest, timestamp := ts } :: rest
    else r :: updateGlobalAnchor i ts latest rest

/-- The anchor update of the legacy `aggiornaVerifica`: mutate the first
record's `latestHash` if present, otherwise leave the index untouched. -/
def setAnchorHashIfPresent (i latest : String) :
    List AnchorRecord → List AnchorRecord
  | [] => []
  | r :: rest =>
    if r.id = i then { r with latestHash := latest } :: rest
    else r :: setAnchorHashIfPresent i latest rest

/-! ## Ledger state and operations of the index modules -/

/-- The persistent state of the index modules: the per-identity chain files
under `identities/` and the `global-chain.json` anchor index. -/
structure LedgerState where
  identities : List (String × List Block)
  globalChain : List AnchorRecord
  deriving DecidableEq, Repr

/-- `getChain`: read the identity's chain file if it exists. -/
def getChain (st : LedgerState) (i : String) : Option (List Block) :=
  getStored st.identities i

/-- `getGenesisPublicKey`: the normalized `publicKeyPem` stored in the
`data` of block 0, if any. -/
def getGenesisPublicKey (chain : List Block) : Option String :=
  match chain with
  | [] => none
  | g :: _ =>
    match g.data with
    | .genesis _ _ pk => normalizePemPublicKey pk
    | _ => none

/-- Result of an index-module operation: the JS `{ error }` /
`{ success, ... }` objects. -/
inductive LedgerResult
  | ok (id : String)
  | error (msg : String)
  deriving DecidableEq, Repr

/-- Whether the result is a success object. -/
def LedgerResult.isOk : LedgerResult → Bool
  | .ok _ => true
  | .error _ => false

/-- `creaIdentita` of the signed index module.  The platform inputs —
SHA-256 (`H`), the fresh random id and the ISO timestamp — are parameters.
Fails when the public key does not normalize; otherwise persists the
one-block chain and upserts the anchor. -/
def creaIdentita (H : String → String) (publicKeyPem freshId ts : String)
    (st : LedgerState) : LedgerResult × LedgerState :=
  match normalizePemPublicKey publicKeyPem with
  | none => (.error "publicKeyPem mancante o non valida (PEM PUBLIC KEY)", st)
  | some pk =>
    let genesisNoHash : Block :=
      { index := 0, timestamp := ts, event := "CREATION"
        data := .genesis "ACTIVE" "AI_PENDING" pk
        previousHash := "GENESIS", hash := "" }
    let genesisBlock : Block :=
      { genesisNoHash with hash := H (serializeNoHash genesisNoHash) }
    let chain := [genesisBlock]
    (.ok freshId,
      { identities := setStored st.identities freshId chain
        globalChain := updateGlobalAnchor freshId ts genesisBlock.hash
          st.globalChain })

/-- The arguments object of `appendEventSigned`; `payload` and
`signatureB64` may be absent from the request body. -/
structure AppendArgs where
  id : String
  event : String
  payload : Option Payload
  signatureB64 : Option String
  dataExtra : List (String × String)
  deriving Repr

/-- `appendEventSigned` of the signed index module.  `H` is SHA-256,
`V pk msg sigB64` is Ed25519 `crypto.verify` on the base64-decoded
signature, `ts` the ISO timestamp.  Every validation failure returns the
error object before any write happens. -/
def appendEventSigned (H : String → String)
    (V : String → String → String → Bool) (args : AppendArgs) (ts : String)
    (st : LedgerState) : LedgerResult × LedgerState :=
  match getChain st args.id with
  | none => (.error "Identita non trovata.", st)
  | some [] =>
    -- `chain?.[0]` is undefined on an empty chain file, so the genesis
    -- public key lookup yields null and the same error is returned.
    (.error "Public key non presente/valida in genesis.", st)
  | some (g :: rest) =>
    match getGenesisPublicKey (g :: rest) with
    | none => (.error "Public key non presente/valida in genesis.", st)
    | some publicKeyPem =>
      match args.payload, args.signatureB64 with
      | none, _ => (.error "payload e signature richiesti.", st)
      | some _, none => (.error "payload e signature richiesti.", st)
      | some payload, some signatureB64 =>
        if payload.id.strEq args.id = false then
          (.error "payload.id non combacia con id.", st)
        else
          let msg := canonicalMessage payload
          if V publicKeyPem msg signatureB64 = false then
            (.error "Firma NON valida. Update rifiutato.", st)
          else
            let lastBlock := (g :: rest).getLast (by simp)
            let newNoHash : Block :=
              { index := (g :: rest).length, timestamp := ts
                event := args.event
                data := .signed payload signatureB64 args.dataExtra
                previousHash := lastBlock.hash, hash := "" }
            let newBlock : Block :=
              { newNoHash with hash := H (serializeNoHash newNoHash) }
            let chain' := (g :: rest) ++ [newBlock]
            (.ok args.id,
              { identities := setStored st.identities args.id chain'
                globalChain := updateGlobalAnchor args.id ts newBlock.hash
                  st.globalChain })

/-- `aggiornaVerifica` of the legacy index module: appends an
`UPDATE_VERIFICATION` block with **no payload and no signature check**,
then updates the anchor's `latestHash` when a record exists.  (On an empty
chain file the JS would throw reading `lastBlock.hash`; such a file is
never produced, and the model returns an error there.) -/
def aggiornaVerifica (H : String → String) (i nuovoLivello ts : String)
    (st : LedgerState) : LedgerResult × LedgerState :=
  match getChain st i with
  | none => (.error "Identita non trovata.", st)
  | some [] => (.error "empty chain", st)
  | some (g :: rest) =>
    let lastBlock := (g :: rest).getLast (by simp)
    let newNoHash : Block :=
      { index := (g :: rest).length, timestamp := ts
        event := "UPDATE_VERIFICATION", data := .plain nuovoLivello
        previousHash := lastBlock.hash, hash := "" }
    let newBlock : Block :=
      { newNoHash with hash := H (serializeNoHash newNoHash) }
    let chain' := (g :: rest) ++ [newBlock]
    (.ok i,
      { identities := setStored st.identities i chain'
        globalChain := setAnchorHashIfPresent i newBlock.hash
          st.globalChain })

/-- The `verificationLevel` property of a block's `data` object, when the
field exists (`b.data?.verificationLevel`). -/
def dataVerificationLevel : BlockData → Option String
  | .genesis _ vl _ => some vl
  | .signed _ _ extra => getStored extra "verificationLevel"
  | .plain vl => some vl

/-- The `status` property of a block's `data` object, when it exists. -/
def dataStatus : BlockData → Option String
  | .genesis s _ _ => some s
  | .signed _ _ extra => getStored extra "status"
  | .plain _ => none

/-- One step of the status scan of `verificaIdentita`: `UPDATE_VERIFICATION`
blocks with a truthy `data.verificationLevel` overwrite the level;
`STATUS_SUSPENDED` / `STATUS_REVOKED` overwrite the status. -/
def scanStep (acc : String × String) (b : Block) : String × String :=
  let vl :=
    match dataVerificationLevel b.data with
    | some v => if b.event = "UPDATE_VERIFICATION" ∧ v ≠ "" then v else acc.2
    | none => acc.2
  let s :=
    if b.event = "STATUS_SUSPENDED" then "SUSPENDED"
    else if b.event = "STATUS_REVOKED" then "REVOKED"
    else acc.1
  (s, vl)

/-- The successful output object of `verificaIdentita`. -/
structure VerificaOutput where
  valid : Bool
  id : String
  status : String
  verificationLevel : String
  blocks : Nat
  deriving DecidableEq, Repr

/-- `verificaIdentita` of the signed index module: recompute the hash of the
last stored block without its `hash` field, compare with the anchor's
`latestHash`, and derive status/verificationLevel by scanning the chain.
(On an empty chain file the JS would throw; the model errors.) -/
def verificaIdentita (H : String → String) (i : String) (st : LedgerState) :
    Except String VerificaOutput :=
  match getChain st i with
  | none => .error "Identita non trovata."
  | some chain =>
    match findAnchor st.globalChain i with
    | none => .error "Record non presente nella Global Chain."
    | some record =>
      match chain with
      | [] => .error "empty chain"
      | g :: rest =>
        let lastBlock := (g :: rest).getLast (by simp)
        let recalculated := H (serializeNoHash lastBlock)
        let valid := recalculated == record.latestHash
        let vl0 := (dataVerificationLevel g.data).getD "AI_PENDING"
        let st0 := (dataStatus g.data).getD "ACTIVE"
        let scanned := (g :: rest).foldl scanStep (st0, vl0)
        .ok { valid := valid, id := i, status := scanned.1
              verificationLevel := scanned.2, blocks := (g :: rest).length }

/-! ## Hash-chain well-formedness -/

/-- `chainOk H chain i ph`: starting at index `i` with expected previous
hash `ph`, every block has the sequential index, links to the expected
previous hash, and stores `H` of its own serialization without the `hash`
field; the expected hash is threaded as each block's stored hash. -/
def chainOk (H : String → String) : List Block → Nat → String → Bool
  | [], _, _ => true
  | b :: rest, i, ph =>
    (b.index == i) && (b.previousHash == ph) &&
    (b.hash == H (serializeNoHash b)) && chainOk H rest (i + 1) b.hash

/-- The stored hash of the last block of `chain`, or `ph` when empty. -/
def lastHashD (ph : String) (chain : List Block) : String :=
  match chain with
  | [] => ph
  | g :: rest => ((g :: rest).getLast (by simp)).hash

theorem lastHashD_append_singleton (ph : String) (chain : List Block)
    (b : Block) : lastHashD ph (chain ++ [b]) = b.hash := by
  induction chain with
  | nil => simp [lastHashD]
  | cons hd tl ih =>
    cases tl with
    | nil => simp [lastHashD, List.getLast, List.getLast?]
    | cons hd' tl' =>
      simp only [lastHashD, List.cons_append, List.getLast] at ih ⊢
      exact ih

theorem chainOk_append_singleton (H : String → String) (chain : List Block)
    (i : Nat) (ph : String) (b : Block) (hok : chainOk H chain i ph = true)
    (hidx : b.index = i + chain.length)
    (hprev : b.previousHash = lastHashD ph chain)
    (hhash : b.hash = H (serializeNoHash b)) :
    chainOk H (chain ++ [b]) i ph = true := by
  induction chain generalizing i ph with
  | nil =>
    simp only [List.length_nil, Nat.add_zero] at hidx
    simp [chainOk, hidx, hprev, hhash, lastHashD]
  | cons hd tl ih =>
    simp only [chainOk, Bool.and_eq_true, beq_iff_eq] at hok
    obtain ⟨⟨⟨h1, h2⟩, h3⟩, h4⟩ := hok
    have hprev' : b.previousHash = lastHashD hd.hash tl := by
      cases tl with
      | nil => simpa [lastHashD, List.getLast] using hprev
      | cons x xs => simpa [lastHashD, List.getLast] using hprev
    have hidx' : b.index = (i + 1) + tl.length := by
      simp only [List.length_cons] at hidx; omega
    have hrec := ih (i + 1) hd.hash h4 hidx' hprev'
    simp only [List.cons_append, chainOk, Bool.and_eq_true, beq_iff_eq]
    exact ⟨⟨⟨h1, h2⟩, h3⟩, hrec⟩

/-- Ledger states reachable from empty storage by `creaIdentita` and
`appendEventSigned` calls (failed calls leave the state unchanged, so both
successful and failed calls are covered). -/
inductive Produced (H : String → String)
    (V : String → String → String → Bool) : LedgerState → Prop
  | init : Produced H V ⟨[], []⟩
  | create (publicKeyPem freshId ts : String) (st : LedgerState) :
      Produced H V st →
      Produced H V (creaIdentita H publicKeyPem freshId ts st).2
  | append (args : AppendArgs) (ts : String) (st : LedgerState) :
      Produced H V st →
      Produced H V (appendEventSigned H V args ts st).2

theorem produced_chainOk (H : String → String)
    (V : String → String → String → Bool) (st : LedgerState)
    (h : Produced H V st) :
    ∀ i ch, getChain st i = some ch →
      ch ≠ [] ∧ chainOk H ch 0 "GENESIS" = true := by
  induction h with
  | init =>
    intro i ch hch
    simp [getChain, getStored] at hch
  | create publicKeyPem freshId ts st _ ih =>
    intro i ch hch
    unfold creaIdentita at hch
    cases hnorm : normalizePemPublicKey publicKeyPem with
    | none => rw [hnorm] at hch; exact ih i ch hch
    | some pk =>
      rw [hnorm] at hch
      simp only [getChain] at hch
      by_cases hid : i = freshId
      · subst hid
        rw [getStored_setStored_self] at hch
        cases hch
        refine ⟨by simp, ?_⟩
        simp [chainOk, serializeNoHash]
      · rw [getStored_setStored_other _ _ _ _ hid] at hch
        exact ih i ch hch
  | append args ts st _ ih =>
    intro i ch hch
    unfold appendEventSigned at hch
    split at hch
    · exact ih i ch hch
    · exact ih i ch hch
    · rename_i g rest hc
      split at hch
      · exact ih i ch hch
      · split at hch
        · exact ih i ch hch
        · exact ih i ch hch
        · split at hch
          · exact ih i ch hch
          · dsimp only at hch
            split at hch
            · exact ih i ch hch
            · simp only [getChain] at hch
              by_cases hid : i = args.id
              · subst hid
                rw [getStored_setStored_self] at hch
                cases hch
                refine ⟨by simp, ?_⟩
                apply chainOk_append_singleton H (g :: rest) 0 "GENESIS"
                · exact (ih args.id (g :: rest) hc).2
                · simp
                · simp [lastHashD]
                · rfl
              · rw [getStored_setStored_other _ _ _ _ hid] at hch
                exact ih i ch hch

theorem chainOk_get (H : String → String) (ch : List Block) (i0 : Nat)
    (ph : String) (hok : chainOk H ch i0 ph = true) :
    ∀ (j : Nat) (hj : j < ch.length),
      (ch.get ⟨j, hj⟩).index = i0 + j ∧
      (ch.get ⟨j, hj⟩).hash = H (serializeNoHash (ch.get ⟨j, hj⟩)) ∧
      (j = 0 → (ch.get ⟨j, hj⟩).previousHash = ph) ∧
      (∀ (hj1 : j + 1 < ch.length),
        (ch.get ⟨j + 1, hj1⟩).previousHash = (ch.get ⟨j, hj⟩).hash) := by
  induction ch generalizing i0 ph with
  | nil => intro j hj; simp at hj
  | cons b rest ih =>
    intro j hj
    simp only [chainOk, Bool.and_eq_true, beq_iff_eq] at hok
    obtain ⟨⟨⟨h1, h2⟩, h3⟩, h4⟩ := hok
    cases j with
    | zero =>
      refine ⟨by simpa using h1, by simpa using h3,
        fun _ => by simpa using h2, ?_⟩
      intro hj1
      cases rest with
      | nil => simp at hj1
      | cons b' rest' =>
        have IH := ih (i0 + 1) b.hash h4 0 (by simp)
        simpa using IH.2.2.1 rfl
    | succ j' =>
      have hj2 : j' < rest.length := by simpa using hj
      have IH := ih (i0 + 1) b.hash h4 j' hj2
      refine ⟨?_, ?_, ?_, ?_⟩
      · have := IH.1
        simp only [List.get_cons_succ]
        omega
      · simpa only [List.get_cons_succ] using IH.2.1
      · intro h0; exact absurd h0 (by omega)
      · intro hj1
        have hj1' : j' + 1 < rest.length := by simpa using hj1
        simpa only [List.get_cons_succ] using IH.2.2.2 hj1'

/-! ## Concrete instances of the platform parameters, for evaluation -/

/-- A concrete stand-in for the SHA-256 hex digest used when evaluating the
operations on explicit inputs. -/
def demoHash (s : String) : String := "#" ++ s

/-- A signature oracle that accepts everything. -/
def demoVerifyTrue : String → String → String → Bool := fun _ _ _ => true

/-- A signature oracle that rejects everything (the behaviour of
`crypto.verify` on a signature that does not verify). -/
def demoVerifyFalse : String → String → String → Bool := fun _ _ _ => false

/-- A concrete public-key string accepted by `normalizePemPublicKey`. -/
def demoPem : String := "BEGIN PUBLIC KEY"

/-- The state after one `creaIdentita` call on empty storage. -/
def demoSt1 : LedgerState :=
  (creaIdentita demoHash demoPem "id1" "t0" ⟨[], []⟩).2

/-- The genesis block stored for `id1` in `demoSt1`. -/
def demoGenesisBlock : Block :=
  { index := 0, timestamp := "t0", event := "CREATION"
    data := .genesis "ACTIVE" "AI_PENDING" demoPem
    previousHash := "GENESIS"
    hash := demoHash (serializeNoHash
      { index := 0, timestamp := "t0", event := "CREATION"
        data := .genesis "ACTIVE" "AI_PENDING" demoPem
        previousHash := "GENESIS", hash := "" }) }

/-- The chain stored for `id1` in `demoSt1`. -/
def demoChain1 : List Block := [demoGenesisBlock]

/-- The anchor record stored for `id1` in `demoSt1`. -/
def demoAnchor1 : AnchorRecord :=
  { id := "id1", timestamp := "t0", latestHash := demoGenesisBlock.hash }

/-- C2: every ledger produced by `creaIdentita` followed by any sequence of
`appendEventSigned` calls is a well-formed hash chain: block 0 has index 0
and previousHash "GENESIS", and every block at position j > 0 has index j
and previousHash equal to the hash of the serialization of block j-1
without its hash field — which is block j-1's stored hash. -/
theorem C2_hash_chain_wellformed (H : String → String)
    (V : String → String → String → Bool) (st : LedgerState)
    (hprod : Produced H V st) (i : String) (ch : List Block)
    (hch : getChain st i = some ch) :
    (∃ h0 : 0 < ch.length,
      (ch.get ⟨0, h0⟩).index = 0 ∧
      (ch.get ⟨0, h0⟩).previousHash = "GENESIS") ∧
    (∀ (j : Nat) (hj : j < ch.length) (hj' : j - 1 < ch.length), 0 < j →
      (ch.get ⟨j, hj⟩).index = j ∧
      (ch.get ⟨j, hj⟩).previousHash =
        H (serializeNoHash (ch.get ⟨j - 1, hj'⟩)) ∧
      (ch.get ⟨j, hj⟩).previousHash = (ch.get ⟨j - 1, hj'⟩).hash) := by
  obtain ⟨hne, hok⟩ := produced_chainOk H V st hprod i ch hch
  have hlen : 0 < ch.length := List.length_pos.mpr hne
  have hget := chainOk_get H ch 0 "GENESIS" hok
  refine ⟨⟨hlen, ?_, ?_⟩, ?_⟩
  · simpa using (hget 0 hlen).1
  · exact (hget 0 hlen).2.2.1 rfl
  · intro j hj hj' hpos
    have hsucc : j - 1 + 1 < ch.length := by omega
    have hprev := (hget (j - 1) hj').2.2.2 hsucc
    have hhash := (hget (j - 1) hj').2.1
    have hidx := (hget j hj).1
    have hfin : (⟨j - 1 + 1, hsucc⟩ : Fin ch.length) = ⟨j, hj⟩ := by
      apply Fin.ext
      show j - 1 + 1 = j
      omega
    rw [hfin] at hprev
    exact ⟨by simpa using hidx, by rw [hprev, hhash], hprev⟩

/-- Witness for C2 at a concrete one-block ledger. -/
theorem C2_hash_chain_wellformed_witness :
    (∃ h0 : 0 < demoChain1.length,
      (demoChain1.get ⟨0, h0⟩).index = 0 ∧
      (demoChain1.get ⟨0, h0⟩).previousHash = "GENESIS") ∧
    (∀ (j : Nat) (hj : j < demoChain1.length)
      (hj' : j - 1 < demoChain1.length), 0 < j →
      (demoChain1.get ⟨j, hj⟩).index = j ∧
      (demoChain1.get ⟨j, hj⟩).previousHash =
        demoHash (serializeNoHash (demoChain1.get ⟨j - 1, hj'⟩)) ∧
      (demoChain1.get ⟨j, hj⟩).previousHash =
        (demoChain1.get ⟨j - 1, hj'⟩).hash) :=
  C2_hash_chain_wellformed demoHash demoVerifyTrue demoSt1
    (Produced.create demoPem "id1" "t0" ⟨[], []⟩ Produced.init)
    "id1" demoChain1 (by decide)

/-- C1 counterexample: the legacy append operation `aggiornaVerifica`
(exposed by the legacy server's POST /update route) appends with **no**
payload and **no** signature, yet succeeds and grows the stored ledger —
so it is false that every append operation exposed by the program rejects
an event with missing payload/signature and leaves the ledger unchanged. -/
theorem C1_counterexample :
    (aggiornaVerifica demoHash "id1" "SPID_VERIFIED" "t1" demoSt1).1.isOk
        = true ∧
    (getChain (aggiornaVerifica demoHash "id1" "SPID_VERIFIED" "t1"
        demoSt1).2 "id1").map List.length = some 2 ∧
    (getChain demoSt1 "id1").map List.length = some 1 := by
  decide

/-- C1 (amended to the signed append): `appendEventSigned` leaves the whole
state — every stored ledger and the anchor index — unchanged whenever it
returns an error, and it returns an error whenever the payload or the
signature is missing, the payload's id does not match the subject id, or
the signature does not verify against the canonical message of the payload
under the genesis public key. -/
theorem C1_signed_append_rejects (H : String → String)
    (V : String → String → String → Bool) (args : AppendArgs) (ts : String)
    (st : LedgerState) :
    ((appendEventSigned H V args ts st).1.isOk = false →
      (appendEventSigned H V args ts st).2 = st) ∧
    (∀ chain pk, getChain st args.id = some chain →
      getGenesisPublicKey chain = some pk →
      (args.payload = none ∨ args.signatureB64 = none ∨
        (∀ payload sigB64, args.payload = some payload →
          args.signatureB64 = some sigB64 →
          payload.id.strEq args.id = false ∨
          V pk (canonicalMessage payload) sigB64 = false)) →
      (appendEventSigned H V args ts st).1.isOk = false) := by
  constructor
  · unfold appendEventSigned
    split
    · intro _; rfl
    · intro _; rfl
    · split
      · intro _; rfl
      · split
        · intro _; rfl
        · intro _; rfl
        · split
          · intro _; rfl
          · dsimp only
            split
            · intro _; rfl
            · intro h; simp [LedgerResult.isOk] at h
  · intro chain pk hc hg hbad
    unfold appendEventSigned
    split
    · rfl
    · rfl
    · rename_i g rest heq
      rw [hc] at heq
      cases heq
      split
      · rfl
      · rename_i pk' heq2
        rw [hg] at heq2
        cases heq2
        split
        · rfl
        · rfl
        · rename_i payload sigB64 heqp heqs
          rcases hbad with hb | hb | hb
          · rw [hb] at heqp; cases heqp
          · rw [hb] at heqs; cases heqs
          · by_cases hid : payload.id.strEq args.id = false
            · rw [if_pos hid]; rfl
            · rcases hb payload sigB64 heqp heqs with hbid | hbv
              · exact absurd hbid hid
              · rw [if_neg hid]
                dsimp only
                rw [if_pos hbv]
                rfl

/-- A concrete signable payload. -/
def demoPayload : Payload :=
  { id := .str "id1", level := .str "SPID_VERIFIED"
    ts := .num 1000, nonce := .str "n1" }

/-- Concrete arguments for a signed append on `id1`. -/
def demoArgs : AppendArgs :=
  { id := "id1", event := "UPDATE_VERIFICATION"
    payload := some demoPayload, signatureB64 := some "c2ln"
    dataExtra := [("verificationLevel", "SPID_VERIFIED")] }

/-- Witness for C1's amended theorem: on a stored one-block ledger, a
signed append whose signature does not verify errors out and leaves the
state unchanged. -/
theorem C1_signed_append_rejects_witness :
    (appendEventSigned demoHash demoVerifyFalse demoArgs "t1"
        demoSt1).1.isOk = false ∧
    (appendEventSigned demoHash demoVerifyFalse demoArgs "t1" demoSt1).2
        = demoSt1 := by
  have h :=
    C1_signed_append_rejects demoHash demoVerifyFalse demoArgs "t1" demoSt1
  have herr := h.2 demoChain1 demoPem (by decide) (by decide)
    (Or.inr (Or.inr (fun _ _ _ _ => Or.inr rfl)))
  exact ⟨herr, h.1 herr⟩

theorem findAnchor_setAnchorHashIfPresent (gc : List AnchorRecord)
    (i v : String) :
    findAnchor (setAnchorHashIfPresent i v gc) i =
      (findAnchor gc i).map fun r => { r with latestHash := v } := by
  induction gc with
  | nil => rfl
  | cons r rest ih =>
    by_cases h : r.id = i
    · simp [setAnchorHashIfPresent, findAnchor, h]
    · simp [setAnchorHashIfPresent, findAnchor, h, ih]

theorem findAnchor_updateGlobalAnchor (gc : List AnchorRecord)
    (i ts latest : String) :
    findAnchor (updateGlobalAnchor i ts latest gc) i = some ⟨i, ts, latest⟩ := by
  induction gc with
  | nil => simp [updateGlobalAnchor, findAnchor]
  | cons r rest ih =>
    by_cases h : r.id = i
    · simp [updateGlobalAnchor, findAnchor, h]
    · simp [updateGlobalAnchor, findAnchor, h, ih]

theorem verificaIdentita_found (H : String → String) (i : String)
    (st : LedgerState) (g : Block) (rest : List Block)
    (record : AnchorRecord) (hch : getChain st i = some (g :: rest))
    (hrec : findAnchor st.globalChain i = some record) :
    verificaIdentita H i st = .ok
      { valid := H (serializeNoHash ((g :: rest).getLast (by simp)))
          == record.latestHash
        id := i
        status := ((g :: rest).foldl scanStep
          ((dataStatus g.data).getD "ACTIVE",
           (dataVerificationLevel g.data).getD "AI_PENDING")).1
        verificationLevel := ((g :: rest).foldl scanStep
          ((dataStatus g.data).getD "ACTIVE",
           (dataVerificationLevel g.data).getD "AI_PENDING")).2
        blocks := (g :: rest).length } := by
  unfold verificaIdentita
  rw [hch, hrec]

/-- C3: with a stored ledger and an anchor record present, the integrity
check succeeds and its `valid` flag is true exactly when the hash
recomputed over the last stored block without its `hash` field equals the
anchor's `latestHash`; altering the anchor's `latestHash` to any other
value, leaving the stored ledger untouched, makes it return
`valid = false`. -/
theorem C3_integrity_check (H : String → String) (i : String)
    (st : LedgerState) (g : Block) (rest : List Block)
    (record : AnchorRecord) (hch : getChain st i = some (g :: rest))
    (hrec : findAnchor st.globalChain i = some record) :
    (∃ out, verificaIdentita H i st = .ok out ∧
      (out.valid = true ↔
        H (serializeNoHash ((g :: rest).getLast (by simp)))
          = record.latestHash)) ∧
    (∀ v, v ≠ H (serializeNoHash ((g :: rest).getLast (by simp))) →
      ∃ out', verificaIdentita H i
          ⟨st.identities, setAnchorHashIfPresent i v st.globalChain⟩
            = .ok out' ∧
        out'.valid = false) := by
  constructor
  · exact ⟨_, verificaIdentita_found H i st g rest record hch hrec,
      by simp⟩
  · intro v hv
    have hch' : getChain
        ⟨st.identities, setAnchorHashIfPresent i v st.globalChain⟩ i
          = some (g :: rest) := hch
    have hrec' : findAnchor
        (setAnchorHashIfPresent i v st.globalChain) i
          = some { record with latestHash := v } := by
      rw [findAnchor_setAnchorHashIfPresent, hrec]
      rfl
    refine ⟨_, verificaIdentita_found H i
      ⟨st.identities, setAnchorHashIfPresent i v st.globalChain⟩
      g rest { record with latestHash := v } hch' hrec', ?_⟩
    simp only [beq_eq_false_iff_ne, ne_eq]
    exact fun h => hv h.symm

/-- Witness for C3 at the concrete one-block ledger of `demoSt1`. -/
theorem C3_integrity_check_witness :
    (∃ out, verificaIdentita demoHash "id1" demoSt1 = .ok out ∧
      (out.valid = true ↔
        demoHash (serializeNoHash
          ((demoGenesisBlock :: []).getLast (by simp)))
            = demoAnchor1.latestHash)) ∧
    (∀ v, v ≠ demoHash (serializeNoHash
        ((demoGenesisBlock :: []).getLast (by simp))) →
      ∃ out', verificaIdentita demoHash "id1"
          ⟨demoSt1.identities,
            setAnchorHashIfPresent "id1" v demoSt1.globalChain⟩
            = .ok out' ∧
        out'.valid = false) :=
  C3_integrity_check demoHash "id1" demoSt1 demoGenesisBlock []
    demoAnchor1 (by decide) (by decide)

/-- C9 counterexample: `creaIdentita` has an error branch that is not a
storage I/O failure — a public key that does not normalize to a PEM
`PUBLIC KEY` string is rejected (no identifier is returned, nothing is
persisted), refuting "create fails only on storage I/O failure, with no
other error branch". -/
theorem C9_counterexample :
    creaIdentita demoHash "garbage" "id1" "t0" ⟨[], []⟩
      = (.error "publicKeyPem mancante o non valida (PEM PUBLIC KEY)",
          ⟨[], []⟩) := by
  decide

/-- C9 (amended): `creaIdentita` fails — leaving the state untouched —
exactly when the public key does not normalize to a PEM `PUBLIC KEY`
string; for every input whose key normalizes it returns the fresh subject
identifier, persists a one-block ledger whose genesis block has event
`CREATION` and embeds the governing public key in `data`, and upserts the
anchor record to the genesis hash (storage I/O, outside the model, aside). -/
theorem C9_create_behaviour (H : String → String)
    (publicKeyPem freshId ts : String) (st : LedgerState) :
    (normalizePemPublicKey publicKeyPem = none →
      creaIdentita H publicKeyPem freshId ts st
        = (.error "publicKeyPem mancante o non valida (PEM PUBLIC KEY)",
            st)) ∧
    (∀ pk, normalizePemPublicKey publicKeyPem = some pk →
      (creaIdentita H publicKeyPem freshId ts st).1 = .ok freshId ∧
      getChain (creaIdentita H publicKeyPem freshId ts st).2 freshId
        = some [{ index := 0, timestamp := ts, event := "CREATION"
                  data := .genesis "ACTIVE" "AI_PENDING" pk
                  previousHash := "GENESIS"
                  hash := H (serializeNoHash
                    { index := 0, timestamp := ts, event := "CREATION"
                      data := .genesis "ACTIVE" "AI_PENDING" pk
                      previousHash := "GENESIS", hash := "" }) }] ∧
      findAnchor (creaIdentita H publicKeyPem freshId ts st).2.globalChain
          freshId
        = some ⟨freshId, ts, H (serializeNoHash
            { index := 0, timestamp := ts, event := "CREATION"
              data := .genesis "ACTIVE" "AI_PENDING" pk
              previousHash := "GENESIS", hash := "" })⟩) := by
  constructor
  · intro hnone
    unfold creaIdentita
    rw [hnone]
  · intro pk hsome
    unfold creaIdentita
    rw [hsome]
    refine ⟨rfl, ?_, ?_⟩
    · simp only [getChain]
      rw [getStored_setStored_self]
    · exact findAnchor_updateGlobalAnchor st.globalChain freshId ts _

/-- Witness for C9 at a concrete accepted key on empty storage. -/
theorem C9_create_behaviour_witness :
    (creaIdentita demoHash demoPem "id1" "t0" ⟨[], []⟩).1 = .ok "id1" ∧
    getChain demoSt1 "id1" = some [demoGenesisBlock] ∧
    findAnchor demoSt1.globalChain "id1" = some demoAnchor1 := by
  have h := (C9_create_behaviour demoHash demoPem "id1" "t0"
    ⟨[], []⟩).2 demoPem (by decide)
  exact ⟨h.1, h.2.1, h.2.2⟩

/-- C8: the canonical message encoder returns exactly
`id=<id>|level=<level>|ts=<ts>|nonce=<nonce>` in that fixed order with `|`
separators; on the example payload it yields
`id=abc|level=2|ts=1000|nonce=n1`, and equal logical inputs always produce
equal outputs. -/
theorem C8_canonical_message :
    (∀ p : Payload, canonicalMessage p =
      "id=" ++ p.id.interp ++ "|level=" ++ p.level.interp ++
      "|ts=" ++ p.ts.interp ++ "|nonce=" ++ p.nonce.interp) ∧
    canonicalMessage
      { id := .str "abc", level := .num 2, ts := .num 1000
        nonce := .str "n1" } = "id=abc|level=2|ts=1000|nonce=n1" ∧
    (∀ p q : Payload, p = q → canonicalMessage p = canonicalMessage q) :=
  ⟨fun _ => rfl, by decide, fun _ _ h => by rw [h]⟩

/-- Witness for C8's determinism hypothesis at a concrete payload. -/
theorem C8_canonical_message_witness :
    canonicalMessage demoPayload = canonicalMessage demoPayload :=
  C8_canonical_message.2.2 demoPayload demoPayload rfl

/-! ## The attestation server (server.js) -/

/-- A registered subject (`did -> { did, publicKeyPem, createdAt }`). -/
structure Subject where
  did : String
  publicKeyPem : String
  createdAt : Nat
  deriving DecidableEq, Repr

/-- A stored challenge (`did -> { nonce, expMs }`). -/
structure Challenge where
  nonce : String
  expMs : Nat
  deriving DecidableEq, Repr

/-- A stored attestation. -/
structure Attestation where
  id : String
  type : String
  payload : List (String × String)
  issuedAt : Nat
  revoked : Bool
  deriving DecidableEq, Repr

/-- The server's storage (the in-memory maps; the relational backend keeps
the same key structure). -/
structure ServerState where
  subjects : List (String × Subject)
  challenges : List (String × Challenge)
  attestations : List (String × List Attestation)
  deriving DecidableEq, Repr

/-- The issuer-key configuration read from the environment. -/
structure ServerConfig where
  aiIssuerKey : String
  spidIssuerKey : String
  juryIssuerKey : String
  suspendKey1 : String
  suspendKey2 : String
  suspendKey3 : String
  deriving DecidableEq, Repr

/-- `requireDid`: a string starting with `did:human:` and longer than 20
characters. -/
def requireDid (did : String) : Bool :=
  "did:human:".toList.isPrefixOf did.toList && decide (did.length > 20)

/-- `levelFromAttestations` of server.js. -/
def levelFromAttestations (attList : List Attestation) : String :=
  let hasAI := attList.any fun a => a.type == "AI_VERIFIED" && !a.revoked
  let hasSPID := attList.any fun a => a.type == "SPID_VERIFIED" && !a.revoked
  let hasJURY := attList.any fun a => a.type == "JURY_VERIFIED" && !a.revoked
  let suspended := attList.any fun a => a.type == "SUSPENDED" && !a.revoked
  if suspended then "SUSPENDED"
  else if hasAI && hasSPID && hasJURY then "MAX_VERIFIED"
  else if hasAI && hasSPID then "STRONG_VERIFIED"
  else if hasAI then "AI_VERIFIED"
  else "UNVERIFIED"

/-- `issuerKeyValid` of server.js.  A single configured key must be present
for the three verification types; for `SUSPENDED` the number of elements of
`keys` lying in the non-empty configured suspension keys must reach 2. -/
def issuerKeyValid (cfg : ServerConfig) (type : String)
    (keys : List String) : Bool :=
  if type == "AI_VERIFIED" then
    !(cfg.aiIssuerKey == "") && keys.contains cfg.aiIssuerKey
  else if type == "SPID_VERIFIED" then
    !(cfg.spidIssuerKey == "") && keys.contains cfg.spidIssuerKey
  else if type == "JURY_VERIFIED" then
    !(cfg.juryIssuerKey == "") && keys.contains cfg.juryIssuerKey
  else if type == "SUSPENDED" then
    let allowed := [cfg.suspendKey1, cfg.suspendKey2, cfg.suspendKey3].filter
      fun k => !(k == "")
    let ok := (keys.filter fun k => allowed.contains k).length
    decide (ok ≥ 2)
  else false

/-- Outcome of the POST /prove route. -/
inductive ProveOutcome
  | badRequest
  | subjectNotFound
  | challengeNotFound
  | challengeExpired
  | nonceMismatch
  | signatureInvalid
  | ok
  deriving DecidableEq, Repr

/-- The POST /prove route of server.js.  `V pk msg sigB64` is Ed25519
`crypto.verify` on the base64-decoded signature; `now` is `Date.now()`.
Missing body fields are the empty string (falsy either way). -/
def prove (V : String → String → String → Bool)
    (did nonce signatureB64 : String) (now : Nat) (st : ServerState) :
    ProveOutcome × ServerState :=
  if !requireDid did || nonce == "" || signatureB64 == "" then
    (.badRequest, st)
  else
    match getStored st.subjects did with
    | none => (.subjectNotFound, st)
    | some subj =>
      match getStored st.challenges did with
      | none => (.challengeNotFound, st)
      | some ch =>
        if now > ch.expMs then
          (.challengeExpired,
            { st with challenges := delStored st.challenges did })
        else if !(ch.nonce == nonce) then (.nonceMismatch, st)
        else if !(V subj.publicKeyPem nonce signatureB64) then
          -- the 401 return happens before the deleteChallenge call
          (.signatureInvalid, st)
        else
          (.ok, { st with challenges := delStored st.challenges did })

/-- Outcome of the POST /attest route. -/
inductive AttestOutcome
  | badRequest
  | subjectNotFound
  | issuerUnauthorized
  | ok
  deriving DecidableEq, Repr

/-- The `issuerKeys` body field: an array, a single value, or absent. -/
inductive IssuerKeysArg
  | arr (keys : List String)
  | single (key : String)
  | absent

/-- `Array.isArray(issuerKeys) ? issuerKeys : (issuerKeys ? [issuerKeys] : [])`. -/
def keysOfArg : IssuerKeysArg → List String
  | .arr keys => keys
  | .single key => if key == "" then [] else [key]
  | .absent => []

/-- The POST /attest route of server.js.  `nowM` is `Date.now()` and `nowS`
is `Math.floor(Date.now()/1000)`; the `issuedAt` merged into the stored
payload is `nowS` stringified. -/
def attest (cfg : ServerConfig) (did type : String)
    (payload : List (String × String)) (issuerKeys : IssuerKeysArg)
    (nowM nowS : Nat) (st : ServerState) : AttestOutcome × ServerState :=
  if !requireDid did || type == "" then (.badRequest, st)
  else
    match getStored st.subjects did with
    | none => (.subjectNotFound, st)
    | some _ =>
      let keys := keysOfArg issuerKeys
      if !issuerKeyValid cfg type keys then (.issuerUnauthorized, st)
      else
        let list := (getStored st.attestations did).getD []
        let att : Attestation :=
          { id := type ++ ":" ++ toString nowM, type := type
            payload := payload ++ [("issuedAt", toString nowS)]
            issuedAt := nowM, revoked := false }
        (.ok,
          { st with attestations :=
              setStored st.attestations did (list ++ [att]) })

/-- C6: `levelFromAttestations` considers only non-revoked entries and
applies strict precedence: SUSPENDED, else all of AI/SPID/JURY ⇒
MAX_VERIFIED, else AI+SPID ⇒ STRONG_VERIFIED, else AI ⇒ AI_VERIFIED, else
UNVERIFIED. -/
theorem C6_derive_level (l : List Attestation) :
    levelFromAttestations l =
      if ∃ a ∈ l, a.type = "SUSPENDED" ∧ a.revoked = false then
        "SUSPENDED"
      else if (∃ a ∈ l, a.type = "AI_VERIFIED" ∧ a.revoked = false) ∧
          (∃ a ∈ l, a.type = "SPID_VERIFIED" ∧ a.revoked = false) ∧
          (∃ a ∈ l, a.type = "JURY_VERIFIED" ∧ a.revoked = false) then
        "MAX_VERIFIED"
      else if (∃ a ∈ l, a.type = "AI_VERIFIED" ∧ a.revoked = false) ∧
          (∃ a ∈ l, a.type = "SPID_VERIFIED" ∧ a.revoked = false) then
        "STRONG_VERIFIED"
      else if ∃ a ∈ l, a.type = "AI_VERIFIED" ∧ a.revoked = false then
        "AI_VERIFIED"
      else "UNVERIFIED" := by
  have key : ∀ t : String,
      ((l.any fun a => a.type == t && !a.revoked) = true)
        = (∃ a ∈ l, a.type = t ∧ a.revoked = false) := by
    intro t
    apply propext
    simp [List.any_eq_true, Bool.and_eq_true]
  simp only [levelFromAttestations, Bool.and_eq_true, key, and_assoc]

theorem getStored_eq_none_of_not_mem {α : Type} (l : List (String × α))
    (k : String) (h : k ∉ l.map Prod.fst) : getStored l k = none := by
  induction l with
  | nil => rfl
  | cons hd tl ih =>
    simp only [List.map_cons, List.mem_cons] at h
    push_neg at h
    have hne : hd.1 ≠ k := fun he => h.1 he.symm
    simp only [getStored, if_neg hne]
    exact ih h.2

theorem getStored_delStored_self {α : Type} (l : List (String × α))
    (k : String) (h : (l.map Prod.fst).Nodup) :
    getStored (delStored l k) k = none := by
  induction l with
  | nil => rfl
  | cons hd tl ih =>
    simp only [List.map_cons, List.nodup_cons] at h
    by_cases he : hd.1 = k
    · simp only [delStored, if_pos he]
      exact getStored_eq_none_of_not_mem tl k (he ▸ h.1)
    · simp only [delStored, if_neg he, getStored, if_neg he]
      exact ih h.2

/-! Concrete server data for evaluation. -/

/-- A DID accepted by `requireDid` (21 characters). -/
def demoDid : String := "did:human:abcdefghijk"

/-- A registered subject for `demoDid`. -/
def demoSubject : Subject :=
  { did := demoDid, publicKeyPem := demoPem, createdAt := 0 }

/-- A stored challenge for `demoDid`. -/
def demoChallenge : Challenge := { nonce := "n1", expMs := 100 }

/-- A server state with one registered subject and one stored challenge. -/
def demoServerSt : ServerState :=
  { subjects := [(demoDid, demoSubject)]
    challenges := [(demoDid, demoChallenge)]
    attestations := [] }

/-- C4 counterexample: when signature verification fails, `/prove` returns
`signatureInvalid` **without deleting** the stored challenge — refuting the
claim that the challenge is deleted whether verification succeeds or
fails. -/
theorem C4_counterexample :
    (prove demoVerifyFalse demoDid "n1" "c2ln" 50 demoServerSt).1
        = .signatureInvalid ∧
    getStored (prove demoVerifyFalse demoDid "n1" "c2ln" 50
        demoServerSt).2.challenges demoDid = some demoChallenge := by
  decide

/-- C4 (amended): `/prove` with a stored challenge behaves as follows — if
`now` is past the expiry it deletes the challenge and fails; if the nonce
mismatches it fails without deleting; otherwise it verifies the signature
over the raw nonce with the subject's registered key and deletes the
challenge **only on success** (on verification failure the challenge stays
stored), so a second `prove` with the same nonce after a *successful*
verification fails with no stored challenge. -/
theorem C4_prove_state_machine (V : String → String → String → Bool)
    (did nonce signatureB64 : String) (now : Nat) (st : ServerState)
    (subj : Subject) (ch : Challenge) (hdid : requireDid did = true)
    (hnonce : nonce ≠ "") (hsig : signatureB64 ≠ "")
    (hsub : getStored st.subjects did = some subj)
    (hch : getStored st.challenges did = some ch)
    (hnodup : (st.challenges.map Prod.fst).Nodup) :
    (now > ch.expMs →
      prove V did nonce signatureB64 now st = (.challengeExpired,
        { st with challenges := delStored st.challenges did })) ∧
    (now ≤ ch.expMs → ch.nonce ≠ nonce →
      prove V did nonce signatureB64 now st = (.nonceMismatch, st)) ∧
    (now ≤ ch.expMs → ch.nonce = nonce →
      V subj.publicKeyPem nonce signatureB64 = false →
      prove V did nonce signatureB64 now st = (.signatureInvalid, st)) ∧
    (now ≤ ch.expMs → ch.nonce = nonce →
      V subj.publicKeyPem nonce signatureB64 = true →
      prove V did nonce signatureB64 now st = (.ok,
        { st with challenges := delStored st.challenges did }) ∧
      (prove V did nonce signatureB64 now
        (prove V did nonce signatureB64 now st).2).1
          = .challengeNotFound) := by
  have hfields : (!requireDid did || nonce == "" || signatureB64 == "")
      = false := by
    simp [hdid, hnonce, hsig]
  refine ⟨?_, ?_, ?_, ?_⟩
  · intro hexp
    unfold prove
    simp only [hsub, hch]
    rw [if_neg (by simp [hfields]), if_pos hexp]
  · intro hexp hne
    unfold prove
    simp only [hsub, hch]
    rw [if_neg (by simp [hfields]),
      if_neg (show ¬ now > ch.expMs by omega),
      if_pos (show (!(ch.nonce == nonce)) = true by simp [hne])]
  · intro hexp heq hv
    unfold prove
    simp only [hsub, hch]
    rw [if_neg (by simp [hfields]),
      if_neg (show ¬ now > ch.expMs by omega),
      if_neg (show ¬ (!(ch.nonce == nonce)) = true by simp [heq]),
      if_pos (show (!(V subj.publicKeyPem nonce signatureB64)) = true
        by simp [hv])]
  · intro hexp heq hv
    have hok : prove V did nonce signatureB64 now st = (.ok,
        { st with challenges := delStored st.challenges did }) := by
      unfold prove
      simp only [hsub, hch]
      rw [if_neg (by simp [hfields]),
        if_neg (show ¬ now > ch.expMs by omega),
        if_neg (show ¬ (!(ch.nonce == nonce)) = true by simp [heq]),
        if_neg (show ¬ (!(V subj.publicKeyPem nonce signatureB64)) = true
          by simp [hv])]
    refine ⟨hok, ?_⟩
    rw [hok]
    unfold prove
    simp only [hsub, getStored_delStored_self st.challenges did hnodup]
    rw [if_neg (by simp [hfields])]

/-- Witness for C4's amended state machine at concrete inputs: a successful
verification deletes the challenge and a replay fails. -/
theorem C4_prove_state_machine_witness :
    (prove demoVerifyTrue demoDid "n1" "c2ln" 50 demoServerSt = (.ok,
      { demoServerSt with
          challenges := delStored demoServerSt.challenges demoDid }) ∧
    (prove demoVerifyTrue demoDid "n1" "c2ln" 50
      (prove demoVerifyTrue demoDid "n1" "c2ln" 50 demoServerSt).2).1
        = .challengeNotFound) :=
  (C4_prove_state_machine demoVerifyTrue demoDid "n1" "c2ln" 50
    demoServerSt demoSubject demoChallenge (by decide) (by decide)
    (by decide) (by decide) (by decide) (by decide)).2.2.2
    (by decide) (by decide) (by decide)

theorem attest_ok_iff (cfg : ServerConfig) (did type : String)
    (payload : List (String × String)) (issuerKeys : IssuerKeysArg)
    (nowM nowS : Nat) (st : ServerState) (subj : Subject)
    (hdid : requireDid did = true) (htype : type ≠ "")
    (hsub : getStored st.subjects did = some subj) :
    (attest cfg did type payload issuerKeys nowM nowS st).1 = .ok ↔
      issuerKeyValid cfg type (keysOfArg issuerKeys) = true := by
  unfold attest
  rw [if_neg (by simp [hdid, htype])]
  simp only [hsub]
  by_cases hv : issuerKeyValid cfg type (keysOfArg issuerKeys) = true
  · rw [if_neg (by simp [hv])]
    simp [hv]
  · have hv' : issuerKeyValid cfg type (keysOfArg issuerKeys) = false := by
      revert hv
      cases issuerKeyValid cfg type (keysOfArg issuerKeys) <;> simp
    rw [if_pos (by simp [hv'])]
    simp [hv']

/-- The issuer-key configuration used for concrete evaluation: three
distinct suspension-authority keys and one key per verification type. -/
def demoCfg : ServerConfig :=
  { aiIssuerKey := "KA", spidIssuerKey := "KS", juryIssuerKey := "KJ"
    suspendKey1 := "K1", suspendKey2 := "K2", suspendKey3 := "K3" }

/-- C5 counterexample: `attest` with `issuerKeys = [K1, K1]` — repeating a
single authorized suspension key — succeeds, although fewer than 2 of the 3
configured suspension-authority keys appear among `issuerKeys`; so the
2-of-3 threshold as stated (distinct configured keys present) is false of
the code. -/
theorem C5_counterexample :
    (attest demoCfg demoDid "SUSPENDED" [] (.arr ["K1", "K1"]) 5 5
        demoServerSt).1 = .ok ∧
    ([demoCfg.suspendKey1, demoCfg.suspendKey2,
        demoCfg.suspendKey3].filter
      fun s => decide (s ≠ "" ∧ s ∈ ["K1", "K1"])).length < 2 := by
  decide

/-- C5 (amended): for a known subject, `attest` with type SUSPENDED
succeeds iff at least 2 **elements** of `issuerKeys` (counted with
multiplicity) equal some non-empty configured suspension-authority key,
while for AI_VERIFIED / SPID_VERIFIED / JURY_VERIFIED (their key being
configured) it succeeds iff that one configured key is present among
`issuerKeys`. -/
theorem C5_attest_issuer_policy (cfg : ServerConfig) (did : String)
    (payload : List (String × String)) (keys : List String)
    (nowM nowS : Nat) (st : ServerState) (subj : Subject)
    (hdid : requireDid did = true)
    (hsub : getStored st.subjects did = some subj) :
    ((attest cfg did "SUSPENDED" payload (.arr keys) nowM nowS st).1
        = .ok ↔
      2 ≤ (keys.filter fun k =>
        ([cfg.suspendKey1, cfg.suspendKey2, cfg.suspendKey3].filter
          fun s => !(s == "")).contains k).length) ∧
    (cfg.aiIssuerKey ≠ "" →
      ((attest cfg did "AI_VERIFIED" payload (.arr keys) nowM nowS st).1
          = .ok ↔
        keys.contains cfg.aiIssuerKey = true)) ∧
    (cfg.spidIssuerKey ≠ "" →
      ((attest cfg did "SPID_VERIFIED" payload (.arr keys) nowM nowS st).1
          = .ok ↔
        keys.contains cfg.spidIssuerKey = true)) ∧
    (cfg.juryIssuerKey ≠ "" →
      ((attest cfg did "JURY_VERIFIED" payload (.arr keys) nowM nowS st).1
          = .ok ↔
        keys.contains cfg.juryIssuerKey = true)) := by
  refine ⟨?_, ?_, ?_, ?_⟩
  · rw [attest_ok_iff cfg did "SUSPENDED" payload (.arr keys) nowM nowS st
      subj hdid (by decide) hsub]
    show (decide (2 ≤ (keys.filter fun k =>
      ([cfg.suspendKey1, cfg.suspendKey2, cfg.suspendKey3].filter
        fun s => !(s == "")).contains k).length)) = true ↔ _
    simp
  · intro hai
    rw [attest_ok_iff cfg did "AI_VERIFIED" payload (.arr keys) nowM nowS
      st subj hdid (by decide) hsub]
    show (!(cfg.aiIssuerKey == "") && keys.contains cfg.aiIssuerKey)
      = true ↔ _
    simp [hai]
  · intro hspid
    rw [attest_ok_iff cfg did "SPID_VERIFIED" payload (.arr keys) nowM
      nowS st subj hdid (by decide) hsub]
    show (!(cfg.spidIssuerKey == "") && keys.contains cfg.spidIssuerKey)
      = true ↔ _
    simp [hspid]
  · intro hjury
    rw [attest_ok_iff cfg did "JURY_VERIFIED" payload (.arr keys) nowM
      nowS st subj hdid (by decide) hsub]
    show (!(cfg.juryIssuerKey == "") && keys.contains cfg.juryIssuerKey)
      = true ↔ _
    simp [hjury]

/-- Witness for C5's amended policy at concrete configuration and keys. -/
theorem C5_attest_issuer_policy_witness :
    (attest demoCfg demoDid "SUSPENDED" [] (.arr ["K1", "K2"]) 5 5
        demoServerSt).1 = .ok ↔
      2 ≤ (["K1", "K2"].filter fun k =>
        ([demoCfg.suspendKey1, demoCfg.suspendKey2,
          demoCfg.suspendKey3].filter
          fun s => !(s == "")).contains k).length :=
  (C5_attest_issuer_policy demoCfg demoDid [] ["K1", "K2"] 5 5
    demoServerSt demoSubject (by decide) (by decide)).1

/-- C10: the SUSPENDED issuer-key check counts list occurrences, not
distinct authorized keys — whenever at least two elements of `issuerKeys`
(not necessarily distinct) each equal some non-empty configured
suspension-authority key, `attest` succeeds for a known subject. -/
theorem C10_suspend_threshold_multiplicity (cfg : ServerConfig)
    (did : String) (payload : List (String × String)) (keys : List String)
    (nowM nowS : Nat) (st : ServerState) (subj : Subject)
    (hdid : requireDid did = true)
    (hsub : getStored st.subjects did = some subj)
    (hcount : 2 ≤ (keys.filter fun k =>
      ([cfg.suspendKey1, cfg.suspendKey2, cfg.suspendKey3].filter
        fun s => !(s == "")).contains k).length) :
    (attest cfg did "SUSPENDED" payload (.arr keys) nowM nowS st).1
      = .ok := by
  rw [attest_ok_iff cfg did "SUSPENDED" payload (.arr keys) nowM nowS st
    subj hdid (by decide) hsub]
  show (decide (2 ≤ (keys.filter fun k =>
    ([cfg.suspendKey1, cfg.suspendKey2, cfg.suspendKey3].filter
      fun s => !(s == "")).contains k).length)) = true
  simpa using hcount

/-- Witness for C10 at `issuerKeys = [K1, K1]`: a single authorized key
repeated passes the threshold. -/
theorem C10_suspend_threshold_multiplicity_witness :
    (attest demoCfg demoDid "SUSPENDED" [] (.arr ["K1", "K1"]) 5 5
        demoServerSt).1 = .ok :=
  C10_suspend_threshold_multiplicity demoCfg demoDid [] ["K1", "K1"] 5 5
    demoServerSt demoSubject (by decide) (by decide) (by decide)

/-! ## DID derivation (server.js) -/

/-- The standard base64 alphabet. -/
def b64Table : List Char :=
  "ABCDEFGHIJKLMNOPQRSTUVWXYZabcdefghijklmnopqrstuvwxyz0123456789+/".toList

/-- The base64url alphabet. -/
def b64UrlTable : List Char :=
  "ABCDEFGHIJKLMNOPQRSTUVWXYZabcdefghijklmnopqrstuvwxyz0123456789-_".toList

/-- The alphabet character for a 6-bit group. -/
def sixtetChar (tbl : List Char) (n : Nat) : Char := tbl.getD n 'A'

/-- `Buffer.from(buf).toString("base64")`: standard base64 with `=`
padding, 3 input bytes per 4 output characters. -/
def base64Std : List Nat → List Char
  | [] => []
  | [a] =>
    [sixtetChar b64Table (a / 4), sixtetChar b64Table (a % 4 * 16),
     '=', '=']
  | [a, b] =>
    [sixtetChar b64Table (a / 4),
     sixtetChar b64Table (a % 4 * 16 + b / 16),
     sixtetChar b64Table (b % 16 * 4), '=']
  | a :: b :: c :: rest =>
    sixtetChar b64Table (a / 4) ::
    sixtetChar b64Table (a % 4 * 16 + b / 16) ::
    sixtetChar b64Table (b % 16 * 4 + c / 64) ::
    sixtetChar b64Table (c % 64) :: base64Std rest

/-- The two regex replacements `\+ -> -` and `\/ -> _` of `base64url`. -/
def urlReplaceChar (c : Char) : Char :=
  if c = '+' then '-' else if c = '/' then '_' else c

/-- The regex replacement `=+$ -> ""`: strip every trailing `=`. -/
def stripTrailingEq (l : List Char) : List Char :=
  (l.reverse.dropWhile fun c => c = '=').reverse

/-- `base64url` of server.js: encode standard base64, substitute the two
url-unsafe characters, strip the trailing padding. -/
def base64url (bytes : List Nat) : String :=
  String.mk (stripTrailingEq ((base64Std bytes).map urlReplaceChar))

/-- Modelled from the spec: the unpadded base64url encoding (RFC 4648 §5
alphabet, no `=` padding), stated independently of the
encode-then-substitute-then-strip route the code takes. -/
def base64urlNoPadSpec : List Nat → List Char
  | [] => []
  | [a] =>
    [sixtetChar b64UrlTable (a / 4), sixtetChar b64UrlTable (a % 4 * 16)]
  | [a, b] =>
    [sixtetChar b64UrlTable (a / 4),
     sixtetChar b64UrlTable (a % 4 * 16 + b / 16),
     sixtetChar b64UrlTable (b % 16 * 4)]
  | a :: b :: c :: rest =>
    sixtetChar b64UrlTable (a / 4) ::
    sixtetChar b64UrlTable (a % 4 * 16 + b / 16) ::
    sixtetChar b64UrlTable (b % 16 * 4 + c / 64) ::
    sixtetChar b64UrlTable (c % 64) :: base64urlNoPadSpec rest

/-- `didFromPublicKeyPem` of server.js: `derOf` is the SPKI/DER export of
the parsed key and `sha256` the 32-byte digest, both platform primitives
passed as parameters. -/
def didFromPublicKeyPem (derOf : String → List Nat)
    (sha256 : List Nat → List Nat) (publicKeyPem : String) : String :=
  "did:human:" ++ base64url (sha256 (derOf publicKeyPem))

theorem urlReplaceChar_sixtetChar (n : Nat) :
    urlReplaceChar (sixtetChar b64Table n) = sixtetChar b64UrlTable n := by
  by_cases h : n < 64
  · have hall : ∀ m, m < 64 →
        urlReplaceChar (sixtetChar b64Table m) = sixtetChar b64UrlTable m :=
      by decide
    exact hall n h
  · have hlen : b64Table.length = 64 := by decide
    have hlen2 : b64UrlTable.length = 64 := by decide
    have h1 : sixtetChar b64Table n = 'A' :=
      List.getD_eq_default _ _ (by omega)
    have h2 : sixtetChar b64UrlTable n = 'A' :=
      List.getD_eq_default _ _ (by omega)
    rw [h1, h2]
    decide

theorem sixtetChar_url_ne_eq (n : Nat) : sixtetChar b64UrlTable n ≠ '=' := by
  by_cases h : n < 64
  · have hall : ∀ m, m < 64 → sixtetChar b64UrlTable m ≠ '=' := by decide
    exact hall n h
  · have hlen : b64UrlTable.length = 64 := by decide
    have h2 : sixtetChar b64UrlTable n = 'A' :=
      List.getD_eq_default _ _ (by omega)
    rw [h2]
    decide

theorem dropWhile_append_eq (p : Char → Bool) (as bs : List Char) :
    List.dropWhile p (as ++ bs) =
      if (List.dropWhile p as).isEmpty then List.dropWhile p bs
      else List.dropWhile p as ++ bs := by
  induction as with
  | nil => simp
  | cons a as ih =>
    simp only [List.cons_append, List.dropWhile_cons]
    by_cases hpa : p a = true
    · simp only [hpa, if_true, ih]
    · simp only [hpa, if_false]
      simp [Bool.not_eq_true] at hpa
      simp [hpa]

theorem dropWhile_eq_self_of_all (p : Char → Bool) (l : List Char)
    (h : ∀ c ∈ l, p c = false) : List.dropWhile p l = l := by
  cases l with
  | nil => rfl
  | cons a l => simp [List.dropWhile_cons, h a (by simp)]

theorem stripTrailingEq_append (xs ys : List Char)
    (hxs : ∀ c ∈ xs, c ≠ '=') :
    stripTrailingEq (xs ++ ys) = xs ++ stripTrailingEq ys := by
  unfold stripTrailingEq
  rw [List.reverse_append, dropWhile_append_eq]
  by_cases hy :
      (List.dropWhile (fun c => decide (c = '=')) ys.reverse).isEmpty = true
  · rw [if_pos hy]
    rw [List.isEmpty_iff] at hy
    rw [hy]
    have hxs' :
        List.dropWhile (fun c => decide (c = '=')) xs.reverse
          = xs.reverse := by
      apply dropWhile_eq_self_of_all
      intro c hc
      simp only [decide_eq_false_iff_not]
      exact hxs c (List.mem_reverse.mp hc)
    rw [hxs', List.reverse_reverse]
    simp
  · rw [if_neg hy, List.reverse_append, List.reverse_reverse]

theorem base64url_eq_noPadSpec (bytes : List Nat) :
    stripTrailingEq ((base64Std bytes).map urlReplaceChar)
      = base64urlNoPadSpec bytes := by
  induction bytes using base64Std.induct with
  | case1 => rfl
  | case2 a =>
    have h1 := urlReplaceChar_sixtetChar (a / 4)
    have h2 := urlReplaceChar_sixtetChar (a % 4 * 16)
    have hne := sixtetChar_url_ne_eq (a % 4 * 16)
    simp only [base64Std, List.map_cons, List.map_nil, h1, h2,
      base64urlNoPadSpec]
    unfold stripTrailingEq
    simp [List.dropWhile_cons, hne, urlReplaceChar]
  | case3 a b =>
    have h1 := urlReplaceChar_sixtetChar (a / 4)
    have h2 := urlReplaceChar_sixtetChar (a % 4 * 16 + b / 16)
    have h3 := urlReplaceChar_sixtetChar (b % 16 * 4)
    have hne := sixtetChar_url_ne_eq (b % 16 * 4)
    simp only [base64Std, List.map_cons, List.map_nil, h1, h2, h3,
      base64urlNoPadSpec]
    unfold stripTrailingEq
    simp [List.dropWhile_cons, hne, urlReplaceChar]
  | case4 a b c rest ih =>
    have h1 := urlReplaceChar_sixtetChar (a / 4)
    have h2 := urlReplaceChar_sixtetChar (a % 4 * 16 + b / 16)
    have h3 := urlReplaceChar_sixtetChar (b % 16 * 4 + c / 64)
    have h4 := urlReplaceChar_sixtetChar (c % 64)
    show stripTrailingEq
      (([sixtetChar b64Table (a / 4),
         sixtetChar b64Table (a % 4 * 16 + b / 16),
         sixtetChar b64Table (b % 16 * 4 + c / 64),
         sixtetChar b64Table (c % 64)].map urlReplaceChar)
        ++ (base64Std rest).map urlReplaceChar) = _
    rw [stripTrailingEq_append _ _ ?_, ih]
    · simp only [List.map_cons, List.map_nil, h1, h2, h3, h4,
        base64urlNoPadSpec, List.cons_append, List.nil_append]
    · intro x hx
      simp only [List.map_cons, List.map_nil, h1, h2, h3, h4,
        List.mem_cons, List.not_mem_nil, or_false] at hx
      rcases hx with h | h | h | h <;>
        (rw [h]; apply sixtetChar_url_ne_eq)

/-- C7: DID derivation is deterministic over key material — two PEM inputs
whose DER/SPKI export is identical yield byte-identical DIDs — and the DID
is the fixed prefix `did:human:` followed by the unpadded base64url
encoding of the SHA-256 digest of the DER bytes. -/
theorem C7_did_derivation (derOf : String → List Nat)
    (sha256 : List Nat → List Nat) (p1 p2 : String)
    (h : derOf p1 = derOf p2) :
    didFromPublicKeyPem derOf sha256 p1
      = didFromPublicKeyPem derOf sha256 p2 ∧
    didFromPublicKeyPem derOf sha256 p1
      = "did:human:" ++
        String.mk (base64urlNoPadSpec (sha256 (derOf p1))) := by
  constructor
  · unfold didFromPublicKeyPem
    rw [h]
  · unfold didFromPublicKeyPem base64url
    rw [base64url_eq_noPadSpec]

/-- Witness for C7 with a concrete DER export shared by two textually
different PEM strings. -/
theorem C7_did_derivation_witness :
    didFromPublicKeyPem (fun _ => [1, 2]) (fun l => l ++ [255])
        " pem with spaces "
      = didFromPublicKeyPem (fun _ => [1, 2]) (fun l => l ++ [255])
        "pem" ∧
    didFromPublicKeyPem (fun _ => [1, 2]) (fun l => l ++ [255])
        " pem with spaces "
      = "did:human:" ++ String.mk (base64urlNoPadSpec [1, 2, 255]) :=
  C7_did_derivation (fun _ => [1, 2]) (fun l => l ++ [255])
    " pem with spaces " "pem" rfl

end HumanId
